import Mathlib

/-!
Shallow embedding of the items CRUD core of the `novi-devops-2025` service:
the in-memory repository (`src/database/repositories/in-memory-items.repository.ts`)
and the items controller (`items.controller.ts`, with response helpers from
`base.controller.ts`). JavaScript runtime semantics that matter here are
modelled explicitly: a request-body field can be absent, present with value
`undefined`, or present with a value of some type; object spread copies keys
that are present even when their value is `undefined`; `parseInt(s, 10)`
parses a leading base-10 integer prefix and yields `NaN` when no digit is
found. Timestamps (`new Date().toISOString()`) are threaded as explicit
`now : String` arguments.
-/

namespace NoviItems

/-- A JavaScript runtime value, restricted to the shapes the items API can
observe in request bodies and store fields. -/
inductive JSVal where
  | undef
  | nul
  | boolean (b : Bool)
  | num (n : Int)
  | str (s : String)
deriving DecidableEq, Repr

/-- JavaScript truthiness of a value (`if (x)`). -/
def JSVal.truthy : JSVal → Bool
  | .undef => false
  | .nul => false
  | .boolean b => b
  | .num n => n != 0
  | .str s => s != ""

/-- `typeof x === 'string'`. -/
def JSVal.isString : JSVal → Bool
  | .str _ => true
  | _ => false

/-- An `Item` record as it exists at runtime. The TypeScript interface
declares `name : string` and `description : string`, but the runtime object
can hold any JavaScript value in those fields, so they are modelled as
`JSVal`. `updatedAt` is absent until the first update. -/
structure Item where
  id : Int
  name : JSVal
  description : JSVal
  createdAt : String
  updatedAt : Option String
deriving DecidableEq, Repr

/-- `CreateItemData`: the repository reads `data.name` and
`data.description` by property access, where an absent key reads as
`undefined`, so plain `JSVal` fields suffice. -/
structure CreateItemData where
  name : JSVal
  description : JSVal
deriving DecidableEq, Repr

/-- `UpdateItemData` as a runtime object: for object spread the presence of
a key matters, so each field is `Option JSVal` (`none` = key absent,
`some v` = key present with value `v`, possibly `undefined`). The `id`
field models a caller that attempts to smuggle an `id` key into the
payload; the repository overrides it after the spread. -/
structure UpdateItemData where
  name : Option JSVal := none
  description : Option JSVal := none
  id : Option JSVal := none
deriving DecidableEq, Repr

/-- The repository state: the `items` array and the `nextId` counter. -/
structure RepoState where
  items : List Item
  nextId : Int
deriving DecidableEq, Repr

namespace Repo

/-- `getInitialData()`: the three seed items. Each `createdAt` is stamped
with the current time, passed here as `now`. -/
def getInitialData (now : String) : List Item :=
  [ { id := 1, name := .str "Item 1", description := .str "First item",
      createdAt := now, updatedAt := none },
    { id := 2, name := .str "Item 2", description := .str "Second item",
      createdAt := now, updatedAt := none },
    { id := 3, name := .str "Item 3", description := .str "Third item",
      createdAt := now, updatedAt := none } ]

/-- The constructor: `items = getInitialData(); nextId = 4`. -/
def initState (now : String) : RepoState :=
  { items := getInitialData now, nextId := 4 }

/-- `getAll()`: returns the items array. -/
def getAll (s : RepoState) : List Item :=
  s.items

/-- `getById(id)`: `this.items.find(item => item.id === id)`. -/
def getById (s : RepoState) (i : Int) : Option Item :=
  s.items.find? (fun it => it.id == i)

/-- `create(data)`: allocates `nextId`, defaults `description` via
`data.description || ''`, stamps `createdAt`, pushes the new item, returns
it. -/
def create (s : RepoState) (d : CreateItemData) (now : String) :
    Item × RepoState :=
  let newItem : Item :=
    { id := s.nextId
      name := d.name
      description := if d.description.truthy then d.description else .str ""
      createdAt := now
      updatedAt := none }
  (newItem, { items := s.items ++ [newItem], nextId := s.nextId + 1 })

/-- The merged record built in `update`:
`{ ...old, ...data, id: old.id, updatedAt: now }`. Spreading `data` copies
every key that is present (even with value `undefined`); the explicit `id`
and `updatedAt` entries, written after the spread, win. -/
def mergeItem (old : Item) (d : UpdateItemData) (now : String) : Item :=
  { id := old.id
    name := d.name.getD old.name
    description := d.description.getD old.description
    createdAt := old.createdAt
    updatedAt := some now }

/-- `update`'s walk over the array: `findIndex(item => item.id === id)`
followed by assignment of the merged record at the found index. Returns
the merged record (or `none` when the index is `-1`) and the resulting
array. -/
def updateItems (i : Int) (d : UpdateItemData) (now : String) :
    List Item → Option Item × List Item
  | [] => (none, [])
  | it :: rest =>
    if it.id == i then
      (some (mergeItem it d now), mergeItem it d now :: rest)
    else
      let r := updateItems i d now rest
      (r.1, it :: r.2)

/-- `update(id, data)`: returns `null` when the id is absent, otherwise the
merged record, persisting it in place. -/
def update (s : RepoState) (i : Int) (d : UpdateItemData) (now : String) :
    Option Item × RepoState :=
  let r := updateItems i d now s.items
  (r.1, { s with items := r.2 })

/-- `remove`'s walk over the array: `findIndex` followed by
`splice(index, 1)`, which deletes exactly the element at the found (first
matching) index. -/
def removeItems (i : Int) : List Item → Bool × List Item
  | [] => (false, [])
  | it :: rest =>
    if it.id == i then
      (true, rest)
    else
      let r := removeItems i rest
      (r.1, it :: r.2)

/-- `remove(id)`: true when an element was deleted, false otherwise. -/
def remove (s : RepoState) (i : Int) : Bool × RepoState :=
  let r := removeItems i s.items
  (r.1, { s with items := r.2 })

/-- `reset()`: discards the current contents, restores the seed items and
sets `nextId = 4`. It ignores the prior state entirely. -/
def reset (_s : RepoState) (now : String) : RepoState :=
  initState now

end Repo

/-- Characters `parseInt` skips as leading whitespace. -/
def jsWhitespace (c : Char) : Bool :=
  c = ' ' || c = '\t' || c = '\n' || c = '\r' || c = '\x0b' || c = '\x0c'

/-- The longest leading run of base-10 digits, as a number; `none` when no
digit is found (the `NaN` case of `parseInt`). -/
def parseDigits (cs : List Char) : Option Nat :=
  let ds := cs.takeWhile Char.isDigit
  if ds.isEmpty then none
  else some (ds.foldl (fun n c => n * 10 + (c.toNat - 48)) 0)

/-- `parseInt(s, 10)`: skip leading whitespace, accept an optional sign,
then read the longest digit prefix; `none` models `NaN`. -/
def parseIntJS (s : String) : Option Int :=
  match s.toList.dropWhile jsWhitespace with
  | '-' :: rest => (parseDigits rest).map (fun n => -(n : Int))
  | '+' :: rest => (parseDigits rest).map (fun n => (n : Int))
  | cs => (parseDigits cs).map (fun n => (n : Int))

/-- A JSON response body produced by the controller. -/
inductive RespBody where
  | itemBody (it : Item)
  | itemsBody (l : List Item)
  | errorBody (e : String)
  | messageBody (m : String)
deriving DecidableEq, Repr

/-- An HTTP response: status code plus JSON body. -/
structure HttpResponse where
  status : Nat
  body : RespBody
deriving DecidableEq, Repr

/-- A request body for the items endpoints: each key can be absent
(`none`) or present with any JavaScript value. -/
structure ReqBody where
  name : Option JSVal := none
  description : Option JSVal := none
deriving DecidableEq, Repr

namespace ItemsController

/-- `BaseController.fail`: 400 with `{ error: message }`. -/
def fail (m : String) : HttpResponse :=
  { status := 400, body := .errorBody m }

/-- `BaseController.notFound`: 404 with `{ error: message }`. -/
def notFound (m : String) : HttpResponse :=
  { status := 404, body := .errorBody m }

/-- `getAll` handler: 200 with all items; never touches the state. -/
def getAll (s : RepoState) : HttpResponse × RepoState :=
  ({ status := 200, body := .itemsBody (Repo.getAll s) }, s)

/-- `getById` handler: parse the id, 400 on `NaN`, 404 when absent,
otherwise 200 with the item. -/
def getById (s : RepoState) (idStr : String) : HttpResponse × RepoState :=
  match parseIntJS idStr with
  | none => (fail "Invalid ID format", s)
  | some i =>
    match Repo.getById s i with
    | none => (notFound "Item not found", s)
    | some it => ({ status := 200, body := .itemBody it }, s)

/-- `create` handler: destructures `name` and `description` from the body
(an absent key destructures to `undefined`), rejects a falsy or non-string
name, rejects a truthy non-string description, then calls the repository
and answers 201. -/
def create (s : RepoState) (body : ReqBody) (now : String) :
    HttpResponse × RepoState :=
  let name := body.name.getD .undef
  let description := body.description.getD .undef
  if !name.truthy || !name.isString then
    (fail "Name is required and must be a string", s)
  else if description.truthy && !description.isString then
    (fail "Description must be a string", s)
  else
    let r := Repo.create s { name := name, description := description } now
    ({ status := 201, body := .itemBody r.1 }, r.2)

/-- `update` handler: parse the id (400 on `NaN`), destructure the body,
reject truthy non-string `name` or `description`, then call the repository
with the object literal `\x7b name, description \x7d` — both keys present,
holding `undefined` when the body omitted them — and answer 404 or 200. -/
def update (s : RepoState) (idStr : String) (body : ReqBody)
    (now : String) : HttpResponse × RepoState :=
  match parseIntJS idStr with
  | none => (fail "Invalid ID format", s)
  | some i =>
    let name := body.name.getD .undef
    let description := body.description.getD .undef
    if name.truthy && !name.isString then
      (fail "Name must be a string", s)
    else if description.truthy && !description.isString then
      (fail "Description must be a string", s)
    else
      let r := Repo.update s i
        { name := some name, description := some description, id := none }
        now
      match r.1 with
      | none => (notFound "Item not found", s)
      | some it => ({ status := 200, body := .itemBody it }, r.2)

/-- `delete` handler: parse the id (400 on `NaN`), call `remove`, answer
404 on false and 200 with the deletion message on true. -/
def delete (s : RepoState) (idStr : String) : HttpResponse × RepoState :=
  match parseIntJS idStr with
  | none => (fail "Invalid ID format", s)
  | some i =>
    let r := Repo.remove s i
    if r.1 then
      ({ status := 200, body := .messageBody "Item deleted successfully" }, r.2)
    else
      (notFound "Item not found", s)

end ItemsController

/-- One mutating repository operation, for reasoning about every state the
store can reach from its initial state (no `reset`). -/
inductive Op where
  | createOp (d : CreateItemData) (now : String)
  | updateOp (i : Int) (d : UpdateItemData) (now : String)
  | removeOp (i : Int)
deriving DecidableEq, Repr

/-- The state after one operation. -/
def applyOp (s : RepoState) : Op → RepoState
  | .createOp d now => (Repo.create s d now).2
  | .updateOp i d now => (Repo.update s i d now).2
  | .removeOp i => (Repo.remove s i).2

/-- The state after a sequence of operations. -/
def run (s : RepoState) : List Op → RepoState
  | [] => s
  | op :: ops => run (applyOp s op) ops

/-- The ids returned by the `create` calls of a sequence of operations, in
call order. -/
def createdIds (s : RepoState) : List Op → List Int
  | [] => []
  | .createOp d now :: ops =>
      (Repo.create s d now).1.id :: createdIds (applyOp s (.createOp d now)) ops
  | .updateOp i d now :: ops => createdIds (applyOp s (.updateOp i d now)) ops
  | .removeOp i :: ops => createdIds (applyOp s (.removeOp i)) ops

/-- The store invariant: item ids are pairwise distinct and every stored id
is below the `nextId` counter. -/
def goodState (s : RepoState) : Prop :=
  (s.items.map Item.id).Nodup ∧ ∀ it ∈ s.items, it.id < s.nextId

theorem updateItems_map_id (i : Int) (d : UpdateItemData) (now : String)
    (l : List Item) :
    (Repo.updateItems i d now l).2.map Item.id = l.map Item.id := by
  induction l with
  | nil => rfl
  | cons it rest ih =>
    simp only [Repo.updateItems]
    by_cases h : it.id == i
    · simp [h, Repo.mergeItem]
    · simp [h, ih]

theorem updateItems_fst_of_find (i : Int) (d : UpdateItemData)
    (now : String) (l : List Item) (it : Item)
    (h : l.find? (fun x => x.id == i) = some it) :
    (Repo.updateItems i d now l).1 = some (Repo.mergeItem it d now) := by
  induction l with
  | nil => simp at h
  | cons x rest ih =>
    rw [List.find?_cons] at h
    by_cases hx : x.id == i
    · simp only [hx] at h
      cases h
      simp [Repo.updateItems, hx]
    · simp only [Bool.not_eq_true] at hx
      simp only [hx] at h
      simp [Repo.updateItems, hx, ih h]

theorem removeItems_sublist (i : Int) (l : List Item) :
    (Repo.removeItems i l).2.Sublist l := by
  induction l with
  | nil => simp [Repo.removeItems]
  | cons x rest ih =>
    by_cases hx : x.id == i
    · have h2 : (Repo.removeItems i (x :: rest)).2 = rest := by
        simp [Repo.removeItems, hx]
      rw [h2]
      exact (List.Sublist.refl rest).cons x
    · have h2 : (Repo.removeItems i (x :: rest)).2
          = x :: (Repo.removeItems i rest).2 := by
        simp [Repo.removeItems, hx]
      rw [h2]
      exact ih.cons₂ x

theorem removeItems_fst_false (i : Int) (l : List Item)
    (h : l.find? (fun x => x.id == i) = none) :
    Repo.removeItems i l = (false, l) := by
  induction l with
  | nil => rfl
  | cons x rest ih =>
    rw [List.find?_cons] at h
    by_cases hx : x.id == i
    · simp [hx] at h
    · simp only [Bool.not_eq_true] at hx
      simp only [hx] at h
      simp [Repo.removeItems, hx, ih h]

theorem removeItems_of_found (i : Int) (l : List Item) (it : Item)
    (hnd : (l.map Item.id).Nodup)
    (h : l.find? (fun x => x.id == i) = some it) :
    (Repo.removeItems i l).1 = true ∧
    (Repo.removeItems i l).2.find? (fun x => x.id == i) = none := by
  induction l with
  | nil => simp at h
  | cons x rest ih =>
    rw [List.map_cons, List.nodup_cons] at hnd
    rw [List.find?_cons] at h
    by_cases hx : x.id == i
    · refine ⟨by simp [Repo.removeItems, hx], ?_⟩
      have hxr : (Repo.removeItems i (x :: rest)).2 = rest := by
        simp [Repo.removeItems, hx]
      rw [hxr, List.find?_eq_none]
      intro y hy hpy
      apply hnd.1
      have hyi : y.id = i := by simpa using hpy
      have hxi : x.id = i := by simpa using hx
      rw [hxi, ← hyi]
      exact List.mem_map_of_mem Item.id hy
    · simp only [Bool.not_eq_true] at hx
      simp only [hx] at h
      obtain ⟨h1, h2⟩ := ih hnd.2 h
      refine ⟨by simp [Repo.removeItems, hx, h1], ?_⟩
      have hxr : (Repo.removeItems i (x :: rest)).2
          = x :: (Repo.removeItems i rest).2 := by
        simp [Repo.removeItems, hx]
      rw [hxr, List.find?_cons]
      simp [hx, h2]

theorem nextId_applyOp (s : RepoState) (op : Op) :
    s.nextId ≤ (applyOp s op).nextId := by
  cases op with
  | createOp d now => simp [applyOp, Repo.create]
  | updateOp i d now => simp [applyOp, Repo.update]
  | removeOp i => simp [applyOp, Repo.remove]

theorem nextId_run (s : RepoState) (ops : List Op) :
    s.nextId ≤ (run s ops).nextId := by
  induction ops generalizing s with
  | nil => exact le_refl _
  | cons op ops ih =>
    exact le_trans (nextId_applyOp s op) (ih (applyOp s op))

theorem goodState_init (now : String) : goodState (Repo.initState now) := by
  constructor
  · show ([1, 2, 3] : List Int).Nodup
    decide
  · intro it hit
    simp only [Repo.initState, Repo.getInitialData, List.mem_cons,
      List.not_mem_nil, or_false] at hit
    rcases hit with rfl | rfl | rfl <;> norm_num [Repo.initState]

theorem goodState_applyOp (s : RepoState) (op : Op)
    (hg : goodState s) : goodState (applyOp s op) := by
  obtain ⟨hnd, hlt⟩ := hg
  cases op with
  | createOp d now =>
    constructor
    · simp only [applyOp, Repo.create, List.map_append, List.map_cons,
        List.map_nil]
      rw [List.nodup_append]
      refine ⟨hnd, List.nodup_singleton _, ?_⟩
      intro a ha hb
      simp only [List.mem_singleton] at hb
      subst hb
      obtain ⟨it, hit, hid⟩ := List.mem_map.mp ha
      exact absurd hid (ne_of_lt (hlt it hit))
    · intro it hit
      simp only [applyOp, Repo.create, List.mem_append,
        List.mem_singleton] at hit
      simp only [applyOp, Repo.create]
      rcases hit with h | h
      · exact lt_trans (hlt it h) (lt_add_one _)
      · subst h; exact lt_add_one _
  | updateOp i d now =>
    constructor
    · simpa [applyOp, Repo.update, updateItems_map_id] using hnd
    · intro it hit
      have hmem : it.id ∈ (Repo.updateItems i d now s.items).2.map Item.id :=
        List.mem_map_of_mem Item.id hit
      rw [updateItems_map_id] at hmem
      obtain ⟨o, ho, hoid⟩ := List.mem_map.mp hmem
      simpa [applyOp, Repo.update, ← hoid] using hlt o ho
  | removeOp i =>
    constructor
    · exact List.Nodup.sublist
        ((removeItems_sublist i s.items).map Item.id) hnd
    · intro it hit
      exact hlt it ((removeItems_sublist i s.items).subset hit)

theorem goodState_run (s : RepoState) (ops : List Op)
    (hg : goodState s) : goodState (run s ops) := by
  induction ops generalizing s with
  | nil => exact hg
  | cons op ops ih => exact ih (applyOp s op) (goodState_applyOp s op hg)

theorem createdIds_ge (ops : List Op) :
    ∀ (s : RepoState), ∀ x ∈ createdIds s ops, s.nextId ≤ x := by
  induction ops with
  | nil => intro s x hx; simp [createdIds] at hx
  | cons op ops ih =>
    intro s x hx
    cases op with
    | createOp d now =>
      simp only [createdIds, List.mem_cons] at hx
      rcases hx with rfl | hx
      · simp [Repo.create]
      · refine le_trans ?_ (ih _ x hx)
        exact nextId_applyOp s (.createOp d now)
    | updateOp i d now =>
      simp only [createdIds] at hx
      exact le_trans (nextId_applyOp s (.updateOp i d now)) (ih _ x hx)
    | removeOp i =>
      simp only [createdIds] at hx
      exact le_trans (nextId_applyOp s (.removeOp i)) (ih _ x hx)

theorem createdIds_pairwise (ops : List Op) (s : RepoState) :
    (createdIds s ops).Pairwise (· < ·) := by
  induction ops generalizing s with
  | nil => simp [createdIds]
  | cons op ops ih =>
    cases op with
    | createOp d now =>
      refine List.Pairwise.cons ?_ (ih _)
      intro x hx
      have hge := createdIds_ge ops (applyOp s (.createOp d now)) x hx
      simp only [applyOp, Repo.create] at hge
      simp only [Repo.create]
      omega
    | updateOp i d now => exact ih _
    | removeOp i => exact ih _

theorem run_append (s : RepoState) (l1 l2 : List Op) :
    run s (l1 ++ l2) = run (run s l1) l2 := by
  induction l1 generalizing s with
  | nil => rfl
  | cons op ops ih => simp [run, ih]

/-- Claim C1 (refuted, code bug): an update of item 1 whose payload has a
description but no name must leave the stored name at its prior value
"Item 1"; instead the controller destructures the absent `name` to
`undefined`, passes it as a present key, and the repository spread
overwrites the stored name with `undefined`, in the response and in the
store alike. -/
theorem controller_partial_update_clobbers_name :
    (∃ it, Repo.getById (Repo.initState "t0") 1 = some it
      ∧ it.name = JSVal.str "Item 1")
    ∧ (∃ u,
        (ItemsController.update (Repo.initState "t0") "1"
          { name := none, description := some (JSVal.str "Z") } "t1").1.body
          = RespBody.itemBody u
        ∧ u.name = JSVal.undef)
    ∧ (∃ v,
        Repo.getById
          (ItemsController.update (Repo.initState "t0") "1"
            { name := none, description := some (JSVal.str "Z") } "t1").2 1
          = some v
        ∧ v.name = JSVal.undef ∧ v.name ≠ JSVal.str "Item 1") := by
  refine ⟨⟨_, rfl, rfl⟩, ⟨_, rfl, rfl⟩, ⟨_, rfl, rfl, by decide⟩⟩

/-- Claim C2: for every path id string on which `parseInt` yields `NaN`
(no base-10 integer can be read from it), the `getById`, `update` and
`delete` handlers answer 400 with error "Invalid ID format" and return the
store state unchanged; the response is a constant independent of the store,
so the store is never consulted and no such request yields a 404 or 500. -/
theorem invalid_id_rejected_before_store (s : RepoState) (idStr : String)
    (body : ReqBody) (now : String) (h : parseIntJS idStr = none) :
    ItemsController.getById s idStr
      = ({ status := 400, body := .errorBody "Invalid ID format" }, s)
    ∧ ItemsController.update s idStr body now
      = ({ status := 400, body := .errorBody "Invalid ID format" }, s)
    ∧ ItemsController.delete s idStr
      = ({ status := 400, body := .errorBody "Invalid ID format" }, s) := by
  refine ⟨?_, ?_, ?_⟩
  · unfold ItemsController.getById
    rw [h]
    rfl
  · unfold ItemsController.update
    rw [h]
    rfl
  · unfold ItemsController.delete
    rw [h]
    rfl

/-- Witness for C2 at the concrete non-numeric id "abc". -/
theorem invalid_id_rejected_before_store_witness :
    ItemsController.getById (Repo.initState "t") "abc"
      = ({ status := 400, body := .errorBody "Invalid ID format" },
         Repo.initState "t")
    ∧ ItemsController.update (Repo.initState "t") "abc" {} "u"
      = ({ status := 400, body := .errorBody "Invalid ID format" },
         Repo.initState "t")
    ∧ ItemsController.delete (Repo.initState "t") "abc"
      = ({ status := 400, body := .errorBody "Invalid ID format" },
         Repo.initState "t") :=
  invalid_id_rejected_before_store (Repo.initState "t") "abc" {} "u" rfl

/-- Claim C3: in every state reachable from the seeded initial store by
create, update and remove (no reset), item ids are pairwise distinct; the
ids returned by the create calls of the run are pairwise strictly
increasing in call order; and once an id present in the store is removed,
no later create call ever returns that id again. -/
theorem store_id_invariants (now : String) (ops : List Op) :
    ((run (Repo.initState now) ops).items.map Item.id).Nodup
    ∧ (createdIds (Repo.initState now) ops).Pairwise (· < ·)
    ∧ ∀ (l1 : List Op) (i : Int) (l2 : List Op),
        ops = l1 ++ Op.removeOp i :: l2 →
        i ∈ (run (Repo.initState now) l1).items.map Item.id →
        i ∉ createdIds (run (Repo.initState now) (l1 ++ [Op.removeOp i])) l2 := by
  refine ⟨(goodState_run _ _ (goodState_init now)).1,
    createdIds_pairwise ops (Repo.initState now), ?_⟩
  intro l1 i l2 hops hmem hctr
  have hg1 : goodState (run (Repo.initState now) l1) :=
    goodState_run _ _ (goodState_init now)
  obtain ⟨x, hx, hxid⟩ := List.mem_map.mp hmem
  have hlt : i < (run (Repo.initState now) l1).nextId := hxid ▸ hg1.2 x hx
  have hge := createdIds_ge l2
    (run (Repo.initState now) (l1 ++ [Op.removeOp i])) i hctr
  rw [run_append] at hge
  have hnx : (run (run (Repo.initState now) l1) [Op.removeOp i]).nextId
      = (run (Repo.initState now) l1).nextId := rfl
  rw [hnx] at hge
  omega

/-- Witness for C3: removing seed item 1 and then creating an item does
not hand out id 1 again. -/
theorem store_id_invariants_witness :
    (1 : Int) ∉ createdIds
      (run (Repo.initState "t") ([] ++ [Op.removeOp 1]))
      [Op.createOp { name := JSVal.str "A", description := JSVal.undef } "u"] :=
  (store_id_invariants "t"
    ([] ++ Op.removeOp 1 ::
      [Op.createOp { name := JSVal.str "A", description := JSVal.undef } "u"])).2.2
    [] 1 [Op.createOp { name := JSVal.str "A", description := JSVal.undef } "u"]
    rfl (by decide)

/-- Claim C4: for an existing id, update — even with a payload attempting
to set an `id` field — returns an item whose id equals the id argument,
and the list of stored ids is unchanged, so the stored item keeps its id. -/
theorem update_preserves_id (s : RepoState) (i : Int) (it : Item)
    (d : UpdateItemData) (now : String)
    (h : Repo.getById s i = some it) :
    (∃ u, (Repo.update s i d now).1 = some u ∧ u.id = i)
    ∧ (Repo.update s i d now).2.items.map Item.id = s.items.map Item.id := by
  simp only [Repo.getById] at h
  have hid : it.id = i := by simpa using List.find?_some h
  refine ⟨⟨Repo.mergeItem it d now, ?_, ?_⟩, ?_⟩
  · simpa [Repo.update] using updateItems_fst_of_find i d now s.items it h
  · exact hid
  · simpa [Repo.update] using updateItems_map_id i d now s.items

/-- Witness for C4: updating seed item 1 with a payload that also tries to
set id 999 keeps id 1 everywhere. -/
theorem update_preserves_id_witness :
    (∃ u, (Repo.update (Repo.initState "t") 1
        { name := some (JSVal.str "Y"), description := none,
          id := some (JSVal.num 999) } "u").1 = some u ∧ u.id = 1)
    ∧ (Repo.update (Repo.initState "t") 1
        { name := some (JSVal.str "Y"), description := none,
          id := some (JSVal.num 999) } "u").2.items.map Item.id
      = (Repo.initState "t").items.map Item.id :=
  update_preserves_id (Repo.initState "t") 1
    { id := 1, name := .str "Item 1", description := .str "First item",
      createdAt := "t", updatedAt := none }
    { name := some (JSVal.str "Y"), description := none,
      id := some (JSVal.num 999) } "u" rfl

/-- Claim C5: in any reachable state, for an id present in the store the
first remove returns true, a second remove of the same id (no intervening
create or reset) returns false, and getById after the removal returns the
absent marker. -/
theorem remove_finality (now : String) (ops : List Op) (i : Int)
    (it : Item)
    (h : Repo.getById (run (Repo.initState now) ops) i = some it) :
    (Repo.remove (run (Repo.initState now) ops) i).1 = true
    ∧ (Repo.remove (Repo.remove (run (Repo.initState now) ops) i).2 i).1
        = false
    ∧ Repo.getById (Repo.remove (run (Repo.initState now) ops) i).2 i
        = none := by
  set s := run (Repo.initState now) ops with hs
  have hg : goodState s := goodState_run _ _ (goodState_init now)
  simp only [Repo.getById] at h
  obtain ⟨h1, h2⟩ := removeItems_of_found i s.items it hg.1 h
  refine ⟨h1, ?_, h2⟩
  have h3 := removeItems_fst_false i (Repo.removeItems i s.items).2 h2
  simp only [Repo.remove]
  rw [h3]

/-- Witness for C5 on seed item 1 of the freshly seeded store. -/
theorem remove_finality_witness :
    (Repo.remove (run (Repo.initState "t") []) 1).1 = true
    ∧ (Repo.remove (Repo.remove (run (Repo.initState "t") []) 1).2 1).1
        = false
    ∧ Repo.getById (Repo.remove (run (Repo.initState "t") []) 1).2 1
        = none :=
  remove_finality "t" [] 1
    { id := 1, name := .str "Item 1", description := .str "First item",
      createdAt := "t", updatedAt := none } rfl

/-- Claim C6: after any sequence of create, update and remove operations,
reset followed by getAll yields exactly the three seed items with ids
1, 2, 3 and names "Item 1", "Item 2", "Item 3" in that order, and the
first create after the reset returns an item with id 4. -/
theorem reset_determinism (now0 : String) (ops : List Op) (nowR : String)
    (d : CreateItemData) (nowC : String) :
    (Repo.getAll (Repo.reset (run (Repo.initState now0) ops) nowR)).map
        (fun it => (it.id, it.name))
      = [(1, JSVal.str "Item 1"), (2, JSVal.str "Item 2"),
         (3, JSVal.str "Item 3")]
    ∧ (Repo.create (Repo.reset (run (Repo.initState now0) ops) nowR)
        d nowC).1.id = 4 :=
  ⟨rfl, rfl⟩

/-- Claim C7: in any reachable state, creating an item with a name X and
no description and then fetching the returned id yields exactly the
created item, whose name is X and whose description is the empty string. -/
theorem create_getById_roundtrip (now0 : String) (ops : List Op)
    (X : String) (nowC : String) :
    Repo.getById
        (Repo.create (run (Repo.initState now0) ops)
          { name := JSVal.str X, description := JSVal.undef } nowC).2
        (Repo.create (run (Repo.initState now0) ops)
          { name := JSVal.str X, description := JSVal.undef } nowC).1.id
      = some (Repo.create (run (Repo.initState now0) ops)
          { name := JSVal.str X, description := JSVal.undef } nowC).1
    ∧ (Repo.create (run (Repo.initState now0) ops)
        { name := JSVal.str X, description := JSVal.undef } nowC).1.name
      = JSVal.str X
    ∧ (Repo.create (run (Repo.initState now0) ops)
        { name := JSVal.str X, description := JSVal.undef } nowC).1.description
      = JSVal.str "" := by
  set s := run (Repo.initState now0) ops with hs
  have hg : goodState s := goodState_run _ _ (goodState_init now0)
  refine ⟨?_, rfl, rfl⟩
  simp only [Repo.getById, Repo.create, List.find?_append]
  have hnone : s.items.find? (fun x => x.id == s.nextId) = none := by
    rw [List.find?_eq_none]
    intro x hx hpx
    have hb := hg.2 x hx
    simp only [beq_iff_eq] at hpx
    omega
  rw [hnone]
  simp [List.find?]

/-- Claim C8: a create request whose body lacks the name key is answered
400 with "Name is required and must be a string" and the store state — in
particular its item list and nextId counter — is exactly what it was
before the request. -/
theorem create_missing_name_rejected (s : RepoState) (body : ReqBody)
    (now : String) (h : body.name = none) :
    ItemsController.create s body now
      = ({ status := 400,
           body := .errorBody "Name is required and must be a string" },
         s) := by
  unfold ItemsController.create
  rw [h]
  rfl

/-- Witness for C8: the spec scenario create with only a description. -/
theorem create_missing_name_rejected_witness :
    ItemsController.create (Repo.initState "t")
      { name := none, description := some (JSVal.str "no name") } "u"
      = ({ status := 400,
           body := .errorBody "Name is required and must be a string" },
         Repo.initState "t") :=
  create_missing_name_rejected (Repo.initState "t")
    { name := none, description := some (JSVal.str "no name") } "u" rfl

/-- Claim C9: an empty-payload update of an existing id succeeds as a
no-op "touch": the returned item keeps the prior name, description, id
and createdAt, and gets updatedAt stamped with the current time. -/
theorem empty_update_touch (s : RepoState) (i : Int) (it : Item)
    (now : String) (h : Repo.getById s i = some it) :
    ∃ u, (Repo.update s i {} now).1 = some u
      ∧ u.name = it.name ∧ u.description = it.description
      ∧ u.id = it.id ∧ u.createdAt = it.createdAt
      ∧ u.updatedAt = some now := by
  simp only [Repo.getById] at h
  refine ⟨Repo.mergeItem it {} now, ?_, rfl, rfl, rfl, rfl, rfl⟩
  simpa [Repo.update] using updateItems_fst_of_find i {} now s.items it h

/-- Witness for C9 on seed item 1. -/
theorem empty_update_touch_witness :
    ∃ u, (Repo.update (Repo.initState "t") 1 {} "u").1 = some u
      ∧ u.name = JSVal.str "Item 1"
      ∧ u.description = JSVal.str "First item"
      ∧ u.id = 1 ∧ u.createdAt = "t" ∧ u.updatedAt = some "u" :=
  empty_update_touch (Repo.initState "t") 1
    { id := 1, name := .str "Item 1", description := .str "First item",
      createdAt := "t", updatedAt := none } "u" rfl

/-- Claim C10: a create request whose body carries name as the empty
string (present and a string, but empty) is answered 400 with "Name is
required and must be a string" — the empty string is falsy, so the `!name`
guard fires — and the store is not mutated. -/
theorem create_empty_name_rejected (s : RepoState) (body : ReqBody)
    (now : String) (h : body.name = some (JSVal.str "")) :
    ItemsController.create s body now
      = ({ status := 400,
           body := .errorBody "Name is required and must be a string" },
         s) := by
  unfold ItemsController.create
  rw [h]
  rfl

/-- Witness for C10 at the concrete body with an empty name. -/
theorem create_empty_name_rejected_witness :
    ItemsController.create (Repo.initState "t")
      { name := some (JSVal.str ""), description := none } "u"
      = ({ status := 400,
           body := .errorBody "Name is required and must be a string" },
         Repo.initState "t") :=
  create_empty_name_rejected (Repo.initState "t")
    { name := some (JSVal.str ""), description := none } "u" rfl

end NoviItems
